import Mathlib

/-!
Shallow embedding of the cross-exchange arbitrage core of the repository:
quote adapters, validation, mock fallback, quote cache, circuit breaker,
retry loop, the three arbitrage calculators and the service entry point.
Prices and times are modelled as rationals; the fetch/network layer is
abstracted as explicit inputs (per-exchange fetch outcomes, an oracle of
HTTP responses indexed by call number, RNG draws passed as parameters).
-/

/-- One exchange's price record, as the dicts built by the `_get_*_price`
adapters in `real_exchange_provider.py` (fields price/bid/ask/volume/
change_24h, plus the optional `data_source` / `quality_score` tags that
`get_price_data` adds to real data only). -/
structure PD where
  price : ℚ
  bid : ℚ
  ask : ℚ
  volume : ℚ
  change_24h : ℚ
  data_source : Option String
  quality_score : Option ℚ
  deriving DecidableEq

/-- Raw opportunity dict built by
`RealExchangeProvider.calculate_arbitrage_opportunities`. -/
structure RawOpp where
  symbol : String
  buy_source : String
  sell_source : String
  buy_price : ℚ
  sell_price : ℚ
  profit_pct : ℚ
  buy_volume : ℚ
  sell_volume : ℚ
  deriving DecidableEq

namespace RealExchangeProvider

/-- `_get_binance_price` response parsing: reject non-positive prices,
swap bid/ask when inverted (`if ask < bid: bid, ask = ask, bid`). -/
def parse_binance (lastPrice bidPrice askPrice volume changePct : ℚ) : Option PD :=
  if lastPrice ≤ 0 ∨ bidPrice ≤ 0 ∨ askPrice ≤ 0 then none
  else if askPrice < bidPrice then
    some ⟨lastPrice, askPrice, bidPrice, volume, changePct, none, none⟩
  else
    some ⟨lastPrice, bidPrice, askPrice, volume, changePct, none, none⟩

/-- `_get_okx_price` response parsing: same positivity check and bid/ask
swap as Binance; `change_24h` is `changePercent * 100` when the field is
present and `0.0` otherwise. -/
def parse_okx (last bidPx askPx vol24h : ℚ) (changePercent : Option ℚ) : Option PD :=
  let chg : ℚ := match changePercent with
    | some c => c * 100
    | none => 0
  if last ≤ 0 ∨ bidPx ≤ 0 ∨ askPx ≤ 0 then none
  else if askPx < bidPx then
    some ⟨last, askPx, bidPx, vol24h, chg, none, none⟩
  else
    some ⟨last, bidPx, askPx, vol24h, chg, none, none⟩

/-- `_get_kucoin_price` response parsing: fields are taken as-is
(no positivity check, no bid/ask swap; `change_24h` is hard-coded 0). -/
def parse_kucoin (price bestBid bestAsk size : ℚ) : PD :=
  ⟨price, bestBid, bestAsk, size, 0, none, none⟩

/-- `_validate_price_data`: price/bid/ask must be positive, and the quote
is rejected only when `ask < bid * 0.95`. -/
def validate_price_data (d : PD) : Bool :=
  0 < d.price && 0 < d.bid && 0 < d.ask && !(d.ask < d.bid * (95 / 100))

/-- The six exchange names of `self.exchanges`, all with `enabled = True`,
as iterated by `_generate_mock_price_data`. -/
def enabled_exchange_names : List String :=
  ["Binance", "OKX", "KuCoin", "Gate.io", "Bybit", "Coinbase Pro"]

/-- `_generate_mock_price_data`: per enabled exchange, a price of
`base * (1 + variation)` with `bid = price * 0.999`, `ask = price * 1.001`;
the RNG draws (base price, per-exchange variation, volume, 24h change) are
passed in as parameters. Note: no `data_source`/quality tag is attached. -/
def generate_mock_price_data (basePrice : ℚ) (variation volume change : String → ℚ) :
    List (String × PD) :=
  enabled_exchange_names.map fun name =>
    let p := basePrice * (1 + variation name)
    (name, ⟨p, p * (999 / 1000), p * (1001 / 1000), volume name, change name, none, none⟩)

/-- Pure core of `get_price_data`: given the per-exchange fetch outcomes
(`none` models a failed/timed-out/exception outcome), keep the results that
pass `_validate_price_data`; if none survive, fall back to
`_generate_mock_price_data`; otherwise tag every kept quote with
`data_source = "real"` and `quality_score = 1.0`. -/
def get_price_data_core (results : List (String × Option PD)) (basePrice : ℚ)
    (variation volume change : String → ℚ) : List (String × PD) :=
  let valid := results.filterMap fun nr =>
    match nr.2 with
    | some d => if validate_price_data d then some (nr.1, d) else none
    | none => none
  if valid.isEmpty then generate_mock_price_data basePrice variation volume change
  else valid.map fun nd =>
    (nd.1, { nd.2 with data_source := some "real", quality_score := some 1 })

/-- The quote cache `self.cache`: a map from key to `{data, timestamp}`. -/
def Cache (α : Type) := String → Option (α × ℚ)

/-- `_set_cache`: store the data together with the current time. -/
def set_cache {α : Type} (c : Cache α) (key : String) (d : α) (now : ℚ) : Cache α :=
  fun k => if k = key then some (d, now) else c k

/-- `_is_cache_valid`: a key is valid iff present and
`now - timestamp < cache_ttl`. -/
def is_cache_valid {α : Type} (c : Cache α) (k : String) (now ttl : ℚ) : Bool :=
  match c k with
  | none => false
  | some e => decide (now - e.2 < ttl)

/-- `_get_from_cache`: return the stored data when the entry is valid. -/
def get_from_cache {α : Type} (c : Cache α) (k : String) (now ttl : ℚ) : Option α :=
  if is_cache_valid c k now ttl then (c k).map Prod.fst else none

/-- `self.circuit_breaker[exchange_id]`: `{'failures': …, 'last_failure': …}`. -/
structure BreakerState where
  failures : ℕ
  last_failure : Option ℚ
  deriving DecidableEq

/-- `_record_failure`: increment the failure count and stamp the time. -/
def record_failure (s : BreakerState) (now : ℚ) : BreakerState :=
  ⟨s.failures + 1, some now⟩

/-- `_record_success`: zero the failure count (the last-failure stamp is kept). -/
def record_success (s : BreakerState) : BreakerState :=
  ⟨0, s.last_failure⟩

/-- `_is_circuit_breaker_open`: open iff at least 5 failures with a
last-failure stamp at most 5 minutes (300 s) old; once more than 5 minutes
have passed the breaker is reset in place (failures = 0, stamp cleared) and
the call is let through. Returns the verdict and the possibly-reset state. -/
def is_circuit_breaker_open (s : BreakerState) (now : ℚ) : Bool × BreakerState :=
  if 5 ≤ s.failures then
    match s.last_failure with
    | some t => if now - t > 300 then (false, ⟨0, none⟩) else (true, s)
    | none => (false, s)
  else (false, s)

/-- Outcome of one HTTP attempt inside `_make_request_with_retry`:
HTTP 200 with a payload, HTTP 429, HTTP 403/451, any other status,
`asyncio.TimeoutError`, or `aiohttp.ClientError`/other exceptions. -/
inductive HttpResult where
  | success (d : ℕ)
  | rate_limited
  | blocked
  | other_status
  | timeout_err
  | client_err
  deriving DecidableEq

/-- The inner `for url_to_try in urls_to_try` loop of one retry attempt:
each HTTP call consumes the next oracle response (indexed by the running
call counter `k`); a 200 returns its payload, a 403/451 leaves the url
loop (`break`), everything else moves on to the next url. Returns the
attempt's outcome and the new call counter. -/
def run_attempt_urls (resp : ℕ → HttpResult) : List Unit → ℕ → Option ℕ × ℕ
  | [], k => (none, k)
  | _ :: rest, k =>
    match resp k with
    | .success d => (some d, k + 1)
    | .blocked => (none, k + 1)
    | _ => run_attempt_urls resp rest (k + 1)

/-- The outer `for attempt in range(self.max_retries)` loop. -/
def run_attempts (resp : ℕ → HttpResult) (urls : List Unit) : ℕ → ℕ → Option ℕ × ℕ
  | 0, k => (none, k)
  | Nat.succ n, k =>
    match run_attempt_urls resp urls k with
    | (some d, k2) => (some d, k2)
    | (none, k2) => run_attempts resp urls n k2

/-- `_make_request_with_retry`, with the HTTP layer as a response oracle:
fail fast (no HTTP call) when the circuit breaker is open; otherwise run
the retry loops over `num_urls` urls and `max_retries` attempts, recording
success or failure on the breaker. Returns the payload (if any), the
number of HTTP calls performed, and the resulting breaker state. -/
def make_request_with_retry (s : BreakerState) (now : ℚ) (resp : ℕ → HttpResult)
    (num_urls max_retries : ℕ) : Option ℕ × ℕ × BreakerState :=
  match is_circuit_breaker_open s now with
  | (true, s2) => (none, 0, s2)
  | (false, s2) =>
    match run_attempts resp (List.replicate num_urls ()) max_retries 0 with
    | (some d, k) => (some d, k, record_success s2)
    | (none, k) => (none, k, record_failure s2 now)

/-- Descending order on `profit_pct`, the key of the final
`opportunities.sort(key=…, reverse=True)`. -/
def rawGe (a b : RawOpp) : Prop := b.profit_pct ≤ a.profit_pct

instance : DecidableRel rawGe := fun a b =>
  inferInstanceAs (Decidable (b.profit_pct ≤ a.profit_pct))

instance : IsTotal RawOpp rawGe :=
  ⟨fun a b => (le_total a.profit_pct b.profit_pct).symm⟩

instance : IsTrans RawOpp rawGe :=
  ⟨fun _ _ _ h1 h2 => le_trans h2 h1⟩

/-- Body of the nested `for i / for j in range(i+1, …)` loops of
`calculate_arbitrage_opportunities` for one pair `(a, b)` with `a` earlier
in the list: the forward branch emits when `bid(b) > ask(a)`; the reverse
branch emits when `ask(a) > bid(b)` — reusing the variables `buy_price =
ask(a)` and `sell_price = bid(b)` as the reversed opportunity's prices. -/
def opp_for_pair (symbol : String) (a b : String × PD) : Option RawOpp :=
  let buy_price := a.2.ask
  let sell_price := b.2.bid
  if sell_price > buy_price then
    some ⟨symbol, a.1, b.1, buy_price, sell_price,
      (sell_price - buy_price) / buy_price * 100, a.2.volume, b.2.volume⟩
  else if buy_price > sell_price then
    some ⟨symbol, b.1, a.1, sell_price, buy_price,
      (buy_price - sell_price) / sell_price * 100, b.2.volume, a.2.volume⟩
  else none

/-- All ordered index pairs `i < j` of the exchange list, in loop order. -/
def pair_opportunities (symbol : String) : List (String × PD) → List RawOpp
  | [] => []
  | a :: rest => rest.filterMap (opp_for_pair symbol a) ++ pair_opportunities symbol rest

/-- `RealExchangeProvider.calculate_arbitrage_opportunities`, parameterized
by the already-fetched quote set for the symbol: empty when fewer than two
quotes, otherwise all pair opportunities sorted by descending profit. -/
def calculate_arbitrage_opportunities (symbol : String)
    (price_data : List (String × PD)) : List RawOpp :=
  if price_data.length < 2 then []
  else List.insertionSort rawGe (pair_opportunities symbol price_data)

/-- `get_arbitrage_opportunities`: concatenation over all supported symbols
(the `buy_source` → `buy_exchange` key renaming keeps the values). -/
def get_arbitrage_opportunities (data : List (String × List (String × PD))) :
    List RawOpp :=
  (data.map fun sp => calculate_arbitrage_opportunities sp.1 sp.2).flatten

end RealExchangeProvider

/-- One entry of `MultiSourceCryptoProvider.get_price_data`'s result list:
a source name and its last price. -/
structure SourceQuote where
  source : String
  price : ℚ
  deriving DecidableEq

/-- Raw opportunity dict built by
`MultiSourceCryptoProvider.calculate_arbitrage_opportunities`
(note: no volume fields). -/
structure MultiOpp where
  buy_source : String
  sell_source : String
  symbol : String
  buy_price : ℚ
  sell_price : ℚ
  profit_abs : ℚ
  profit_pct : ℚ
  deriving DecidableEq

namespace MultiSourceCryptoProvider

/-- Descending order on `profit_pct` for the final sort. -/
def multiGe (a b : MultiOpp) : Prop := b.profit_pct ≤ a.profit_pct

instance : DecidableRel multiGe := fun a b =>
  inferInstanceAs (Decidable (b.profit_pct ≤ a.profit_pct))

instance : IsTotal MultiOpp multiGe :=
  ⟨fun a b => (le_total a.profit_pct b.profit_pct).symm⟩

instance : IsTrans MultiOpp multiGe :=
  ⟨fun _ _ _ h1 h2 => le_trans h2 h1⟩

/-- The `i < j` double loop: emit (buy at `source1`, sell at `source2`)
whenever `price2 > price1`. -/
def pair_opportunities (symbol : String) : List SourceQuote → List MultiOpp
  | [] => []
  | a :: rest =>
    rest.filterMap (fun b =>
      if b.price > a.price then
        some ⟨a.source, b.source, symbol, a.price, b.price, b.price - a.price,
          (b.price - a.price) / a.price * 100⟩
      else none) ++ pair_opportunities symbol rest

/-- `MultiSourceCryptoProvider.calculate_arbitrage_opportunities`,
parameterized by the fetched per-source price list. -/
def calculate_arbitrage_opportunities (symbol : String)
    (price_data : List SourceQuote) : List MultiOpp :=
  if price_data.length < 2 then []
  else List.insertionSort multiGe (pair_opportunities symbol price_data)

end MultiSourceCryptoProvider

/-- One ticker of `EnhancedCCXTProvider.get_all_tickers_with_fallback`. -/
structure Ticker where
  exchange : String
  bid : ℚ
  ask : ℚ
  volume : ℚ
  deriving DecidableEq

/-- Raw opportunity dict built by
`EnhancedCCXTProvider.calculate_arbitrage_opportunities`. -/
structure CcxtOpp where
  buy_exchange : String
  sell_exchange : String
  symbol : String
  buy_price : ℚ
  sell_price : ℚ
  profit_abs : ℚ
  profit_pct : ℚ
  buy_volume : ℚ
  sell_volume : ℚ
  deriving DecidableEq

namespace EnhancedCCXTProvider

/-- Descending order on `profit_pct` for the final sort. -/
def ccxtGe (a b : CcxtOpp) : Prop := b.profit_pct ≤ a.profit_pct

instance : DecidableRel ccxtGe := fun a b =>
  inferInstanceAs (Decidable (b.profit_pct ≤ a.profit_pct))

instance : IsTotal CcxtOpp ccxtGe :=
  ⟨fun a b => (le_total a.profit_pct b.profit_pct).symm⟩

instance : IsTrans CcxtOpp ccxtGe :=
  ⟨fun _ _ _ h1 h2 => le_trans h2 h1⟩

/-- The `i < j` double loop: buy at `ticker1`'s ask, sell at `ticker2`'s
bid, guarded by Python truthiness of the prices (`if buy_price and
sell_price and sell_price > buy_price`). Only this single direction is
checked. -/
def pair_opportunities (symbol : String) : List Ticker → List CcxtOpp
  | [] => []
  | a :: rest =>
    rest.filterMap (fun b =>
      if a.ask ≠ 0 ∧ b.bid ≠ 0 ∧ b.bid > a.ask then
        some ⟨a.exchange, b.exchange, symbol, a.ask, b.bid, b.bid - a.ask,
          (b.bid - a.ask) / a.ask * 100, a.volume, b.volume⟩
      else none) ++ pair_opportunities symbol rest

/-- `EnhancedCCXTProvider.calculate_arbitrage_opportunities`,
parameterized by the fetched tickers. -/
def calculate_arbitrage_opportunities (symbol : String)
    (tickers : List Ticker) : List CcxtOpp :=
  if tickers.length < 2 then []
  else List.insertionSort ccxtGe (pair_opportunities symbol tickers)

end EnhancedCCXTProvider

/-- The `ArbitrageOpportunity` dataclass of `real_data_service.py`. -/
structure ArbitrageOpportunity where
  symbol : String
  buy_exchange : String
  sell_exchange : String
  buy_price : ℚ
  sell_price : ℚ
  profit_margin : ℚ
  available_volume : ℚ
  risk_score : ℚ
  estimated_time : ℤ
  deriving DecidableEq

namespace RealDataService

/-- Python `int()` on a rational: truncation toward zero. -/
def pyInt (q : ℚ) : ℤ := if 0 ≤ q then ⌊q⌋ else ⌈q⌉

/-- The risk-score formula shared by the three enrichment loops:
`min(10, max(1, 5 + (profit_pct - 1) * 2 - min(buy_vol, sell_vol) / 10000))`. -/
def risk_score_of (profit_pct bv sv : ℚ) : ℚ :=
  min 10 (max 1 (5 + (profit_pct - 1) * 2 - min bv sv / 10000))

/-- `max(30, int(120 - profit_pct * 20 + risk_score * 10))`. -/
def estimated_time_of (profit_pct risk : ℚ) : ℤ :=
  max 30 (pyInt (120 - profit_pct * 20 + risk * 10))

/-- Enrichment of a real-exchange-provider opportunity (branch 1 of
`get_real_arbitrage_opportunities`); volumes default to 1000 when absent,
but the provider always sets them. -/
def enrich_real (o : RawOpp) : ArbitrageOpportunity :=
  let risk := risk_score_of o.profit_pct o.buy_volume o.sell_volume
  ⟨o.symbol, o.buy_source, o.sell_source, o.buy_price, o.sell_price, o.profit_pct,
    min o.buy_volume o.sell_volume, risk, estimated_time_of o.profit_pct risk⟩

/-- Enrichment of a multi-source opportunity (branch 2); the raw dict has
no volume keys, so `opp.get('buy_volume', 1000)` always yields 1000. -/
def enrich_multi (o : MultiOpp) : ArbitrageOpportunity :=
  let risk := risk_score_of o.profit_pct 1000 1000
  ⟨o.symbol, o.buy_source, o.sell_source, o.buy_price, o.sell_price, o.profit_pct,
    min (1000 : ℚ) 1000, risk, estimated_time_of o.profit_pct risk⟩

/-- Enrichment of a CCXT opportunity (branch 3). -/
def enrich_ccxt (o : CcxtOpp) : ArbitrageOpportunity :=
  let risk := risk_score_of o.profit_pct o.buy_volume o.sell_volume
  ⟨o.symbol, o.buy_exchange, o.sell_exchange, o.buy_price, o.sell_price, o.profit_pct,
    min o.buy_volume o.sell_volume, risk, estimated_time_of o.profit_pct risk⟩

/-- Descending order on `profit_margin`, the key of the service's final
`opportunities.sort(key=lambda x: x.profit_margin, reverse=True)`. -/
def arbGe (a b : ArbitrageOpportunity) : Prop := b.profit_margin ≤ a.profit_margin

instance : DecidableRel arbGe := fun a b =>
  inferInstanceAs (Decidable (b.profit_margin ≤ a.profit_margin))

instance : IsTotal ArbitrageOpportunity arbGe :=
  ⟨fun a b => (le_total a.profit_margin b.profit_margin).symm⟩

instance : IsTrans ArbitrageOpportunity arbGe :=
  ⟨fun _ _ _ h1 h2 => le_trans h2 h1⟩

/-- `RealDataService.get_real_arbitrage_opportunities`, parameterized by
the data each provider would fetch: per-symbol quote sets for the real
exchange provider, per-symbol source price lists for the multi-source
provider, a flag for CCXT availability and per-symbol tickers for CCXT.
Branch 1 enriches the real-provider opportunities with `profit_pct > 0.1`;
branch 2 runs when fewer than 5 opportunities were collected; branch 3
runs when none were; the result is sorted by descending profit margin and
truncated to 20 entries. -/
def get_real_arbitrage_opportunities
    (real_data : List (String × List (String × PD)))
    (multi_data : List (String × List SourceQuote))
    (ccxt_available : Bool)
    (ccxt_data : List (String × List Ticker)) : List ArbitrageOpportunity :=
  let real_opps := RealExchangeProvider.get_arbitrage_opportunities real_data
  let ops1 := real_opps.filterMap fun o =>
    if (1 : ℚ) / 10 < o.profit_pct then some (enrich_real o) else none
  let ops2 := if ops1.length < 5 then
      ops1 ++ (multi_data.map fun sp =>
        (MultiSourceCryptoProvider.calculate_arbitrage_opportunities sp.1 sp.2).filterMap
          fun o => if (1 : ℚ) / 10 < o.profit_pct then some (enrich_multi o) else none).flatten
    else ops1
  let ops3 := if ops2.isEmpty ∧ ccxt_available then
      (ccxt_data.map fun sp =>
        (EnhancedCCXTProvider.calculate_arbitrage_opportunities sp.1 sp.2).filterMap
          fun o => if (1 : ℚ) / 10 < o.profit_pct then some (enrich_ccxt o) else none).flatten
    else ops2
  (List.insertionSort arbGe ops3).take 20

end RealDataService

/-- C10: quote-cache round-trip and expiry — immediately after
`_set_cache(key, data)` at time `t`, `_get_from_cache(key)` at time `tnow`
(no intervening set for the key) returns the stored data exactly when
fewer than `cache_ttl = 60` seconds have elapsed, and `None` once at least
60 seconds have elapsed. -/
theorem cache_roundtrip_ttl {α : Type} (c : RealExchangeProvider.Cache α)
    (key : String) (d : α) (t tnow : ℚ) :
    RealExchangeProvider.get_from_cache
        (RealExchangeProvider.set_cache c key d t) key tnow 60
      = if tnow - t < 60 then some d else none := by
  unfold RealExchangeProvider.get_from_cache RealExchangeProvider.is_cache_valid
    RealExchangeProvider.set_cache
  by_cases h : tnow - t < 60 <;> simp [h]

/-- C7 counterexample: a call whose first HTTP attempt is rate-limited
(HTTP 429) is retried — with the response oracle answering 429 then 200,
`_make_request_with_retry` performs 2 HTTP calls and returns the payload
of the second, so the layer does retry after `RateLimited` (the claim says
it must not). -/
theorem retry_after_rate_limited_counterexample :
    RealExchangeProvider.make_request_with_retry ⟨0, none⟩ 0
        (fun k => if k = 0 then .rate_limited else .success 42) 1 3
      = (some 42, 2, ⟨0, none⟩) := by
  decide

/-- C7 amended: the retry loop treats HTTP 429 like a transient error —
after a 429 (with a `min(60, 2**attempt)` backoff sleep) the next attempt
is made, exactly as after a timeout; attempts are bounded by
`max_retries`; only HTTP 403/451 cut a round short by skipping the
remaining backup urls of the current attempt. Concretely: (i) 429 then
200 → 2 calls, payload returned; (ii) timeout then 200 → 2 calls, payload
returned; (iii) all-403 with 3 urls and 1 attempt → only 1 call;
(iv) all-429 with 1 url and 2 attempts → exactly 2 calls, then failure
is recorded on the breaker. -/
theorem retry_policy_amended :
    RealExchangeProvider.make_request_with_retry ⟨0, none⟩ 0
        (fun k => if k = 0 then .rate_limited else .success 42) 1 3
      = (some 42, 2, ⟨0, none⟩) ∧
    RealExchangeProvider.make_request_with_retry ⟨0, none⟩ 0
        (fun k => if k = 0 then .timeout_err else .success 7) 1 3
      = (some 7, 2, ⟨0, none⟩) ∧
    RealExchangeProvider.make_request_with_retry ⟨0, none⟩ 0
        (fun _ => .blocked) 3 1 = (none, 1, ⟨1, some 0⟩) ∧
    RealExchangeProvider.make_request_with_retry ⟨0, none⟩ 0
        (fun _ => .rate_limited) 1 2 = (none, 2, ⟨1, some 0⟩) := by
  refine ⟨by decide, by decide, by decide, by decide⟩

/-- C1 evaluated at the failing input (spec scenario 2): for the quote set
`{A: bid=100, ask=101}`, `{B: bid=99, ask=100}` the claim requires no
opportunity in either direction, but the reverse-check branch of
`calculate_arbitrage_opportunities` — which reuses `buy_price = ask(A)`
and `sell_price = bid(B)` as the reversed opportunity's prices — emits one
opportunity that "buys" at B's bid 99 and "sells" at A's ask 101 with
profit 200/99 ≈ 2.02 %. -/
theorem reverse_check_emits_phantom_opportunity :
    RealExchangeProvider.calculate_arbitrage_opportunities "BTC/USDT"
        [("A", ⟨100, 100, 101, 5, 0, none, none⟩),
         ("B", ⟨100, 99, 100, 7, 0, none, none⟩)]
      = [⟨"BTC/USDT", "B", "A", 99, 101, 200 / 99, 7, 5⟩] := by
  norm_num [RealExchangeProvider.calculate_arbitrage_opportunities,
    RealExchangeProvider.pair_opportunities, RealExchangeProvider.opp_for_pair,
    List.insertionSort, List.orderedInsert]

/-- C2 evaluated at the failing input: for the quote set `{A: bid=100,
ask=101}`, `{B: bid=103, ask=104}` presented in the order `[B, A]`, the
claim requires the single opportunity buy=A@101, sell=B@103 (profit
≈ 1.98 %), but the reverse-check branch instead emits buy=A at A's *bid*
100 and sell=B at B's *ask* 104, reporting 4 % profit. -/
theorem scenario_one_order_dependent :
    RealExchangeProvider.calculate_arbitrage_opportunities "BTC/USDT"
        [("B", ⟨100, 103, 104, 7, 0, none, none⟩),
         ("A", ⟨100, 100, 101, 5, 0, none, none⟩)]
      = [⟨"BTC/USDT", "A", "B", 100, 104, 4, 5, 7⟩] := by
  norm_num [RealExchangeProvider.calculate_arbitrage_opportunities,
    RealExchangeProvider.pair_opportunities, RealExchangeProvider.opp_for_pair,
    List.insertionSort, List.orderedInsert]

/-- C6 counterexample: the breaker has no half-open state. Concrete trace:
5 failures at time 0 (breaker opens); a check at t = 301 s finds the 300 s
cooldown expired, fully resets the breaker (failures := 0) and lets the
call through; a failure recorded at t = 301 brings the count to 1 only, so
the next check at t = 302 still reports the breaker closed and
`_make_request_with_retry` performs an HTTP call — whereas the claimed
half-open machine would have reopened the breaker on that single failure. -/
theorem no_half_open_state_counterexample :
    (RealExchangeProvider.is_circuit_breaker_open
        (List.foldl RealExchangeProvider.record_failure ⟨0, none⟩
          [0, 0, 0, 0, 0]) 301).1 = false ∧
    RealExchangeProvider.record_failure
        (RealExchangeProvider.is_circuit_breaker_open
          (List.foldl RealExchangeProvider.record_failure ⟨0, none⟩
            [0, 0, 0, 0, 0]) 301).2 301 = ⟨1, some 301⟩ ∧
    (RealExchangeProvider.is_circuit_breaker_open ⟨1, some 301⟩ 302).1 = false ∧
    (RealExchangeProvider.make_request_with_retry ⟨1, some 301⟩ 302
        (fun _ => .timeout_err) 1 1).2.1 = 1 := by
  refine ⟨?_, ?_, ?_, ?_⟩ <;>
    norm_num [RealExchangeProvider.is_circuit_breaker_open,
      RealExchangeProvider.record_failure, RealExchangeProvider.make_request_with_retry,
      RealExchangeProvider.run_attempts, RealExchangeProvider.run_attempt_urls,
      RealExchangeProvider.record_success, List.foldl]

/-- C3 counterexample: with exactly one valid real quote (fewer than 2),
`get_price_data` does not fall back to synthetic data — it returns that
single real quote tagged `data_source = "real"`, so the returned set is
neither all-synthetic nor tagged Synthetic. -/
theorem single_real_quote_not_synthetic_counterexample :
    RealExchangeProvider.get_price_data_core
        [("Binance", some ⟨100, 99, 101, 5, 0, none, none⟩),
         ("OKX", none), ("KuCoin", none), ("Gate.io", none), ("Bybit", none)]
        50000 (fun _ => 0) (fun _ => 1000) (fun _ => 0)
      = [("Binance", ⟨100, 99, 101, 5, 0, some "real", some 1⟩)] := by
  norm_num [RealExchangeProvider.get_price_data_core,
    RealExchangeProvider.validate_price_data, List.filterMap_cons]

/-- C3 amended: `get_price_data` falls back to `_generate_mock_price_data`
only when zero fetch results pass validation; the fallback set is then
non-empty (one quote per enabled exchange, 6 of them) but its quotes carry
no data-quality tag at all (`data_source = none`) — only real quotes are
ever tagged, with `data_source = "real"`. -/
theorem mock_fallback_amended (results : List (String × Option PD)) (basePrice : ℚ)
    (variation volume change : String → ℚ)
    (hall : ∀ nr ∈ results, ∀ d, nr.2 = some d →
      RealExchangeProvider.validate_price_data d = false) :
    RealExchangeProvider.get_price_data_core results basePrice variation volume change
      = RealExchangeProvider.generate_mock_price_data basePrice variation volume change ∧
    (RealExchangeProvider.get_price_data_core results basePrice variation volume
      change).length = 6 ∧
    ∀ p ∈ RealExchangeProvider.get_price_data_core results basePrice variation volume
      change, p.2.data_source = none := by
  have hvalid : (results.filterMap fun nr =>
      match nr.2 with
      | some d => if RealExchangeProvider.validate_price_data d then some (nr.1, d)
        else none
      | none => none) = [] := by
    rw [List.filterMap_eq_nil_iff]
    intro nr hnr
    cases h2 : nr.2 with
    | none => simp
    | some d => simp [hall nr hnr d h2]
  have hmock : RealExchangeProvider.get_price_data_core results basePrice variation
      volume change
      = RealExchangeProvider.generate_mock_price_data basePrice variation volume
        change := by
    unfold RealExchangeProvider.get_price_data_core
    rw [hvalid]
    simp
  refine ⟨hmock, ?_, ?_⟩
  · rw [hmock]
    simp [RealExchangeProvider.generate_mock_price_data,
      RealExchangeProvider.enabled_exchange_names]
  · rw [hmock]
    intro p hp
    simp only [RealExchangeProvider.generate_mock_price_data, List.mem_map] at hp
    obtain ⟨name, _, rfl⟩ := hp
    rfl

/-- C3 amended, witness at a concrete input: one fetch result whose quote
fails validation (price 0) forces the mock fallback, whose 6 quotes are
untagged. -/
theorem mock_fallback_amended_witness :
    RealExchangeProvider.get_price_data_core
        [("Binance", some ⟨0, 1, 1, 0, 0, none, none⟩)] 100
        (fun _ => 0) (fun _ => 0) (fun _ => 0)
      = RealExchangeProvider.generate_mock_price_data 100
        (fun _ => 0) (fun _ => 0) (fun _ => 0) ∧
    (RealExchangeProvider.get_price_data_core
        [("Binance", some ⟨0, 1, 1, 0, 0, none, none⟩)] 100
        (fun _ => 0) (fun _ => 0) (fun _ => 0)).length = 6 := by
  have h := mock_fallback_amended
    [("Binance", some ⟨0, 1, 1, 0, 0, none, none⟩)] 100
    (fun _ => 0) (fun _ => 0) (fun _ => 0)
    (by
      intro nr hnr d hd
      simp only [List.mem_singleton] at hnr
      subst hnr
      simp only [Option.some.injEq] at hd
      subst hd
      norm_num [RealExchangeProvider.validate_price_data])
  exact ⟨h.1, h.2.1⟩

/-- C4 counterexample: the KuCoin adapter performs no bid/ask swap and
`_validate_price_data` only rejects `ask < bid * 0.95`, so a KuCoin
response with bid 100 / ask 96 passes validation and reaches the returned
quote set with `ask < bid` — the negative spread is propagated, neither
swapped nor rejected. -/
theorem negative_spread_propagated_counterexample :
    RealExchangeProvider.validate_price_data
        (RealExchangeProvider.parse_kucoin 100 100 96 5) = true ∧
    (RealExchangeProvider.parse_kucoin 100 100 96 5).ask
      < (RealExchangeProvider.parse_kucoin 100 100 96 5).bid ∧
    RealExchangeProvider.get_price_data_core
        [("KuCoin", some (RealExchangeProvider.parse_kucoin 100 100 96 5))] 1
        (fun _ => 0) (fun _ => 0) (fun _ => 0)
      = [("KuCoin", ⟨100, 100, 96, 5, 0, some "real", some 1⟩)] := by
  refine ⟨?_, ?_, ?_⟩ <;>
    norm_num [RealExchangeProvider.validate_price_data,
      RealExchangeProvider.parse_kucoin, RealExchangeProvider.get_price_data_core,
      List.filterMap_cons]

/-- C4 amended: only the Binance and OKX adapters swap an inverted
bid/ask pair (so their quotes always satisfy `bid ≤ ask`); the KuCoin,
Gate and Bybit adapters parse the fields as-is, and aggregator validation
guarantees no more than `bid * 0.95 ≤ ask`, so a quote with
`bid * 0.95 ≤ ask < bid` is returned to callers with a negative spread. -/
theorem bid_ask_swap_amended :
    (∀ lp bp ap v ch d, RealExchangeProvider.parse_binance lp bp ap v ch = some d →
      d.bid ≤ d.ask) ∧
    (∀ l b a v cp d, RealExchangeProvider.parse_okx l b a v cp = some d →
      d.bid ≤ d.ask) ∧
    (∀ d, RealExchangeProvider.validate_price_data d = true →
      d.bid * (95 / 100) ≤ d.ask) := by
  refine ⟨?_, ?_, ?_⟩
  · intro lp bp ap v ch d h
    unfold RealExchangeProvider.parse_binance at h
    split_ifs at h with h1 h2 <;> simp only [Option.some.injEq] at h <;> subst h
    · exact le_of_lt h2
    · exact le_of_not_lt h2
  · intro l b a v cp d h
    unfold RealExchangeProvider.parse_okx at h
    split_ifs at h with h1 h2 <;> simp only [Option.some.injEq] at h <;> subst h
    · exact le_of_lt h2
    · exact le_of_not_lt h2
  · intro d h
    simp only [RealExchangeProvider.validate_price_data, Bool.and_eq_true,
      decide_eq_true_eq, Bool.not_eq_true', decide_eq_false_iff_not, not_lt] at h
    exact h.2

/-- C4 amended, witness: Binance and OKX swap the inverted pair
bid 100 / ask 96 into bid 96 / ask 100, and a validated quote with
ask 96 / bid 100 satisfies `bid * 0.95 ≤ ask`. -/
theorem bid_ask_swap_amended_witness :
    (⟨100, 96, 100, 5, 0, none, none⟩ : PD).bid
      ≤ (⟨100, 96, 100, 5, 0, none, none⟩ : PD).ask ∧
    (⟨100, 96, 100, 5, 7, none, none⟩ : PD).bid
      ≤ (⟨100, 96, 100, 5, 7, none, none⟩ : PD).ask ∧
    (⟨100, 100, 96, 5, 0, none, none⟩ : PD).bid * (95 / 100)
      ≤ (⟨100, 100, 96, 5, 0, none, none⟩ : PD).ask := by
  refine ⟨bid_ask_swap_amended.1 100 100 96 5 0 _ ?_,
    bid_ask_swap_amended.2.1 100 100 96 5 (some (7 / 100)) _ ?_,
    bid_ask_swap_amended.2.2 _ ?_⟩ <;>
    norm_num [RealExchangeProvider.parse_binance, RealExchangeProvider.parse_okx,
      RealExchangeProvider.validate_price_data]

/-- Folding `_record_failure` adds one failure per recorded time. -/
theorem foldl_record_failure_failures (ts : List ℚ)
    (s0 : RealExchangeProvider.BreakerState) :
    (ts.foldl RealExchangeProvider.record_failure s0).failures
      = s0.failures + ts.length := by
  induction ts generalizing s0 with
  | nil => simp
  | cons a rest ih =>
    simp only [List.foldl_cons, ih, RealExchangeProvider.record_failure,
      List.length_cons]
    omega

/-- Folding `_record_failure` stamps the last recorded time. -/
theorem foldl_record_failure_last (ts : List ℚ) (t : ℚ) (h : ts.getLast? = some t)
    (s0 : RealExchangeProvider.BreakerState) :
    (ts.foldl RealExchangeProvider.record_failure s0).last_failure = some t := by
  induction ts generalizing s0 with
  | nil => simp at h
  | cons a rest ih =>
    cases rest with
    | nil =>
      simp only [List.getLast?_singleton, Option.some.injEq] at h
      subst h
      rfl
    | cons b rs =>
      rw [List.getLast?_cons_cons] at h
      exact ih h _

/-- While at least 5 failures are on record and at most 300 s have passed
since the last one, `_is_circuit_breaker_open` reports open and leaves the
state untouched. -/
theorem breaker_open_of (s : RealExchangeProvider.BreakerState) (t now : ℚ)
    (h5 : 5 ≤ s.failures) (hl : s.last_failure = some t) (hw : now - t ≤ 300) :
    RealExchangeProvider.is_circuit_breaker_open s now = (true, s) := by
  unfold RealExchangeProvider.is_circuit_breaker_open
  rw [if_pos h5, hl]
  simp only [if_neg (not_lt.mpr hw)]

/-- C5: after five consecutive `_record_failure` calls, the last at time
`t`, any `_make_request_with_retry` call at a time `now` with
`now - t ≤ 300` (the 5-minute recovery window not yet over) fails fast:
it returns no data, performs zero HTTP calls, and leaves the breaker state
unchanged — whatever the response oracle, url list and retry budget. -/
theorem circuit_breaker_fails_fast (s0 : RealExchangeProvider.BreakerState)
    (ts : List ℚ) (h5 : ts.length = 5) (t : ℚ) (hlast : ts.getLast? = some t)
    (now : ℚ) (hwin : now - t ≤ 300) (resp : ℕ → RealExchangeProvider.HttpResult)
    (num_urls max_retries : ℕ) :
    RealExchangeProvider.make_request_with_retry
        (ts.foldl RealExchangeProvider.record_failure s0) now resp num_urls max_retries
      = (none, 0, ts.foldl RealExchangeProvider.record_failure s0) := by
  have hf : 5 ≤ (ts.foldl RealExchangeProvider.record_failure s0).failures := by
    rw [foldl_record_failure_failures, h5]
    omega
  have hl := foldl_record_failure_last ts t hlast s0
  unfold RealExchangeProvider.make_request_with_retry
  rw [breaker_open_of _ t now hf hl hwin]

/-- C5 witness: five failures at times 1…5, then a call at `now = 300`
(295 s after the last failure) against an oracle that would answer 200
immediately — the call still returns nothing and performs zero HTTP calls. -/
theorem circuit_breaker_fails_fast_witness :
    RealExchangeProvider.make_request_with_retry
        (List.foldl RealExchangeProvider.record_failure ⟨0, none⟩ [1, 2, 3, 4, 5])
        300 (fun _ => .success 9) 2 3
      = (none, 0,
         List.foldl RealExchangeProvider.record_failure ⟨0, none⟩ [1, 2, 3, 4, 5]) :=
  circuit_breaker_fails_fast ⟨0, none⟩ [1, 2, 3, 4, 5] rfl 5 rfl 300
    (by norm_num) (fun _ => .success 9) 2 3

/-- C6 amended: the breaker is a two-state machine. With at least 5
failures on record it is open for exactly the 300 s after the last
failure; the first check after that window fully resets it (failure count
zeroed, stamp cleared) and lets the call through — there is no half-open
state: a success zeroes the count, and a single failure right after the
reset leaves the breaker closed (it takes 5 fresh consecutive failures to
reopen). -/
theorem breaker_two_state_amended :
    (∀ (s : RealExchangeProvider.BreakerState) (t now : ℚ), 5 ≤ s.failures →
      s.last_failure = some t → now - t ≤ 300 →
      RealExchangeProvider.is_circuit_breaker_open s now = (true, s)) ∧
    (∀ (s : RealExchangeProvider.BreakerState) (t now : ℚ), 5 ≤ s.failures →
      s.last_failure = some t → now - t > 300 →
      RealExchangeProvider.is_circuit_breaker_open s now = (false, ⟨0, none⟩)) ∧
    (∀ s : RealExchangeProvider.BreakerState,
      (RealExchangeProvider.record_success s).failures = 0) ∧
    (∀ now now2 : ℚ,
      (RealExchangeProvider.is_circuit_breaker_open
        (RealExchangeProvider.record_failure ⟨0, none⟩ now) now2).1 = false) := by
  refine ⟨breaker_open_of, ?_, fun _ => rfl, ?_⟩
  · intro s t now h5 hl hw
    unfold RealExchangeProvider.is_circuit_breaker_open
    rw [if_pos h5, hl]
    simp only [if_pos hw]
  · intro now now2
    rfl

/-- C6 amended, witness: at 5 failures last stamped at time 0, a check at
`now = 300` reports open; a check at `now = 301` resets to the cleared
state; a success from 3 failures zeroes the count; a failure at time 301
followed by a check at 302 reports closed. -/
theorem breaker_two_state_amended_witness :
    RealExchangeProvider.is_circuit_breaker_open ⟨5, some 0⟩ 300
      = (true, ⟨5, some 0⟩) ∧
    RealExchangeProvider.is_circuit_breaker_open ⟨5, some 0⟩ 301
      = (false, ⟨0, none⟩) ∧
    (RealExchangeProvider.record_success ⟨3, some 7⟩).failures = 0 ∧
    (RealExchangeProvider.is_circuit_breaker_open
      (RealExchangeProvider.record_failure ⟨0, none⟩ 301) 302).1 = false :=
  ⟨breaker_two_state_amended.1 ⟨5, some 0⟩ 0 300 le_rfl rfl (by norm_num),
   breaker_two_state_amended.2.1 ⟨5, some 0⟩ 0 301 le_rfl rfl (by norm_num),
   breaker_two_state_amended.2.2.1 ⟨3, some 7⟩,
   breaker_two_state_amended.2.2.2 301 302⟩

/-- Pair opportunities of the real provider never pair a source with
itself when the quote-set source names are distinct. -/
theorem real_pairs_distinct (symbol : String) (pd : List (String × PD))
    (hnd : (pd.map Prod.fst).Nodup) :
    ∀ o ∈ RealExchangeProvider.pair_opportunities symbol pd,
      o.buy_source ≠ o.sell_source := by
  induction pd with
  | nil =>
    intro o ho
    simp [RealExchangeProvider.pair_opportunities] at ho
  | cons a rest ih =>
    intro o ho
    simp only [RealExchangeProvider.pair_opportunities, List.mem_append] at ho
    simp only [List.map_cons, List.nodup_cons] at hnd
    rcases ho with ho | ho
    · rw [List.mem_filterMap] at ho
      obtain ⟨b, hb, heq⟩ := ho
      have hane : a.1 ≠ b.1 := by
        intro h
        exact hnd.1 (h ▸ List.mem_map_of_mem Prod.fst hb)
      simp only [RealExchangeProvider.opp_for_pair] at heq
      split_ifs at heq with h1 h2
      · cases heq
        exact hane
      · cases heq
        exact hane.symm
    · exact ih hnd.2 o ho

/-- `RealExchangeProvider.calculate_arbitrage_opportunities` never pairs a
source with itself when the quote-set source names are distinct. -/
theorem real_calc_distinct (symbol : String) (pd : List (String × PD))
    (hnd : (pd.map Prod.fst).Nodup) :
    ∀ o ∈ RealExchangeProvider.calculate_arbitrage_opportunities symbol pd,
      o.buy_source ≠ o.sell_source := by
  intro o ho
  unfold RealExchangeProvider.calculate_arbitrage_opportunities at ho
  split_ifs at ho
  · exact absurd ho (List.not_mem_nil o)
  · rw [List.mem_insertionSort] at ho
    exact real_pairs_distinct symbol pd hnd o ho

/-- Same distinctness for the multi-source calculator. -/
theorem multi_pairs_distinct (symbol : String) (pd : List SourceQuote)
    (hnd : (pd.map SourceQuote.source).Nodup) :
    ∀ o ∈ MultiSourceCryptoProvider.pair_opportunities symbol pd,
      o.buy_source ≠ o.sell_source := by
  induction pd with
  | nil =>
    intro o ho
    simp [MultiSourceCryptoProvider.pair_opportunities] at ho
  | cons a rest ih =>
    intro o ho
    simp only [MultiSourceCryptoProvider.pair_opportunities, List.mem_append] at ho
    simp only [List.map_cons, List.nodup_cons] at hnd
    rcases ho with ho | ho
    · rw [List.mem_filterMap] at ho
      obtain ⟨b, hb, heq⟩ := ho
      have hane : a.source ≠ b.source := by
        intro h
        exact hnd.1 (h ▸ List.mem_map_of_mem SourceQuote.source hb)
      split_ifs at heq
      cases heq
      exact hane
    · exact ih hnd.2 o ho

/-- Same distinctness for `MultiSourceCryptoProvider`'s calculator. -/
theorem multi_calc_distinct (symbol : String) (pd : List SourceQuote)
    (hnd : (pd.map SourceQuote.source).Nodup) :
    ∀ o ∈ MultiSourceCryptoProvider.calculate_arbitrage_opportunities symbol pd,
      o.buy_source ≠ o.sell_source := by
  intro o ho
  unfold MultiSourceCryptoProvider.calculate_arbitrage_opportunities at ho
  split_ifs at ho
  · exact absurd ho (List.not_mem_nil o)
  · rw [List.mem_insertionSort] at ho
    exact multi_pairs_distinct symbol pd hnd o ho

/-- Same distinctness for the CCXT calculator. -/
theorem ccxt_pairs_distinct (symbol : String) (tickers : List Ticker)
    (hnd : (tickers.map Ticker.exchange).Nodup) :
    ∀ o ∈ EnhancedCCXTProvider.pair_opportunities symbol tickers,
      o.buy_exchange ≠ o.sell_exchange := by
  induction tickers with
  | nil =>
    intro o ho
    simp [EnhancedCCXTProvider.pair_opportunities] at ho
  | cons a rest ih =>
    intro o ho
    simp only [EnhancedCCXTProvider.pair_opportunities, List.mem_append] at ho
    simp only [List.map_cons, List.nodup_cons] at hnd
    rcases ho with ho | ho
    · rw [List.mem_filterMap] at ho
      obtain ⟨b, hb, heq⟩ := ho
      have hane : a.exchange ≠ b.exchange := by
        intro h
        exact hnd.1 (h ▸ List.mem_map_of_mem Ticker.exchange hb)
      split_ifs at heq
      cases heq
      exact hane
    · exact ih hnd.2 o ho

/-- Same distinctness for `EnhancedCCXTProvider`'s calculator. -/
theorem ccxt_calc_distinct (symbol : String) (tickers : List Ticker)
    (hnd : (tickers.map Ticker.exchange).Nodup) :
    ∀ o ∈ EnhancedCCXTProvider.calculate_arbitrage_opportunities symbol tickers,
      o.buy_exchange ≠ o.sell_exchange := by
  intro o ho
  unfold EnhancedCCXTProvider.calculate_arbitrage_opportunities at ho
  split_ifs at ho
  · exact absurd ho (List.not_mem_nil o)
  · rw [List.mem_insertionSort] at ho
    exact ccxt_pairs_distinct symbol tickers hnd o ho

/-- Branch 1 of the service: each kept real-provider opportunity clears
the 0.1 % threshold and pairs two distinct exchanges. -/
theorem real_branch_prop (real_data : List (String × List (String × PD)))
    (h1 : ∀ sp ∈ real_data, (sp.2.map Prod.fst).Nodup)
    (o : ArbitrageOpportunity)
    (ho : o ∈ (RealExchangeProvider.get_arbitrage_opportunities real_data).filterMap
      fun r => if (1 : ℚ) / 10 < r.profit_pct then some (RealDataService.enrich_real r)
        else none) :
    (1 : ℚ) / 10 < o.profit_margin ∧ o.buy_exchange ≠ o.sell_exchange := by
  rw [List.mem_filterMap] at ho
  obtain ⟨raw, hraw, heq⟩ := ho
  split_ifs at heq with hp
  cases heq
  unfold RealExchangeProvider.get_arbitrage_opportunities at hraw
  rw [List.mem_flatten] at hraw
  obtain ⟨l, hl, hrl⟩ := hraw
  rw [List.mem_map] at hl
  obtain ⟨sp, hsp, rfl⟩ := hl
  have hne := real_calc_distinct sp.1 sp.2 (h1 sp hsp) raw hrl
  exact ⟨hp, hne⟩

/-- Branch 2 of the service: each kept multi-source opportunity clears
the 0.1 % threshold and pairs two distinct sources. -/
theorem multi_branch_prop (multi_data : List (String × List SourceQuote))
    (h2 : ∀ sp ∈ multi_data, (sp.2.map SourceQuote.source).Nodup)
    (o : ArbitrageOpportunity)
    (ho : o ∈ (multi_data.map fun sp =>
      (MultiSourceCryptoProvider.calculate_arbitrage_opportunities sp.1 sp.2).filterMap
        fun r => if (1 : ℚ) / 10 < r.profit_pct
          then some (RealDataService.enrich_multi r) else none).flatten) :
    (1 : ℚ) / 10 < o.profit_margin ∧ o.buy_exchange ≠ o.sell_exchange := by
  rw [List.mem_flatten] at ho
  obtain ⟨l, hl, hol⟩ := ho
  rw [List.mem_map] at hl
  obtain ⟨sp, hsp, rfl⟩ := hl
  rw [List.mem_filterMap] at hol
  obtain ⟨raw, hraw, heq⟩ := hol
  split_ifs at heq with hp
  cases heq
  have hne := multi_calc_distinct sp.1 sp.2 (h2 sp hsp) raw hraw
  exact ⟨hp, hne⟩

/-- Branch 3 of the service: each kept CCXT opportunity clears the 0.1 %
threshold and pairs two distinct exchanges. -/
theorem ccxt_branch_prop (ccxt_data : List (String × List Ticker))
    (h3 : ∀ sp ∈ ccxt_data, (sp.2.map Ticker.exchange).Nodup)
    (o : ArbitrageOpportunity)
    (ho : o ∈ (ccxt_data.map fun sp =>
      (EnhancedCCXTProvider.calculate_arbitrage_opportunities sp.1 sp.2).filterMap
        fun r => if (1 : ℚ) / 10 < r.profit_pct
          then some (RealDataService.enrich_ccxt r) else none).flatten) :
    (1 : ℚ) / 10 < o.profit_margin ∧ o.buy_exchange ≠ o.sell_exchange := by
  rw [List.mem_flatten] at ho
  obtain ⟨l, hl, hol⟩ := ho
  rw [List.mem_map] at hl
  obtain ⟨sp, hsp, rfl⟩ := hl
  rw [List.mem_filterMap] at hol
  obtain ⟨raw, hraw, heq⟩ := hol
  split_ifs at heq with hp
  cases heq
  have hne := ccxt_calc_distinct sp.1 sp.2 (h3 sp hsp) raw hraw
  exact ⟨hp, hne⟩

/-- C8: every opportunity returned by `get_real_arbitrage_opportunities`
has profit margin strictly above the 0.1 % threshold and a buy exchange
distinct from its sell exchange, whichever provider branch produced it —
provided each quote set names its sources without duplicates (as the
providers' per-source dicts guarantee). -/
theorem opportunities_above_threshold_distinct
    (real_data : List (String × List (String × PD)))
    (multi_data : List (String × List SourceQuote))
    (ccxt_available : Bool) (ccxt_data : List (String × List Ticker))
    (h1 : ∀ sp ∈ real_data, (sp.2.map Prod.fst).Nodup)
    (h2 : ∀ sp ∈ multi_data, (sp.2.map SourceQuote.source).Nodup)
    (h3 : ∀ sp ∈ ccxt_data, (sp.2.map Ticker.exchange).Nodup) :
    ∀ o ∈ RealDataService.get_real_arbitrage_opportunities real_data multi_data
      ccxt_available ccxt_data,
      (1 : ℚ) / 10 < o.profit_margin ∧ o.buy_exchange ≠ o.sell_exchange := by
  intro o ho
  simp only [RealDataService.get_real_arbitrage_opportunities] at ho
  have ho2 := List.mem_of_mem_take ho
  rw [List.mem_insertionSort] at ho2
  split_ifs at ho2
  · exact ccxt_branch_prop ccxt_data h3 o ho2
  · rcases List.mem_append.mp ho2 with hm | hm
    · exact real_branch_prop real_data h1 o hm
    · exact multi_branch_prop multi_data h2 o hm
  · exact ccxt_branch_prop ccxt_data h3 o ho2
  · exact real_branch_prop real_data h1 o ho2

/-- C9: the list returned by `get_real_arbitrage_opportunities` is sorted
in descending order of profit margin — every element is ≥ each later one,
so in particular each adjacent pair is ordered. -/
theorem opportunities_sorted_desc
    (real_data : List (String × List (String × PD)))
    (multi_data : List (String × List SourceQuote))
    (ccxt_available : Bool) (ccxt_data : List (String × List Ticker)) :
    List.Chain' (fun a b => b.profit_margin ≤ a.profit_margin)
      (RealDataService.get_real_arbitrage_opportunities real_data multi_data
        ccxt_available ccxt_data) := by
  simp only [RealDataService.get_real_arbitrage_opportunities]
  exact List.Pairwise.chain'
    ((List.sorted_insertionSort RealDataService.arbGe _).sublist
      (List.take_sublist _ _))

/-- C8 witness: with one real quote set {A: bid 100/ask 101, B: bid 103/
ask 104}, the service returns exactly the enriched buy-A/sell-B
opportunity, whose profit margin 200/101 % clears the threshold and whose
exchanges differ. -/
theorem opportunities_above_threshold_distinct_witness :
    (1 : ℚ) / 10 < (RealDataService.enrich_real
      ⟨"BTC/USDT", "A", "B", 101, 103, 200 / 101, 5, 7⟩).profit_margin ∧
    (RealDataService.enrich_real
      ⟨"BTC/USDT", "A", "B", 101, 103, 200 / 101, 5, 7⟩).buy_exchange
      ≠ (RealDataService.enrich_real
      ⟨"BTC/USDT", "A", "B", 101, 103, 200 / 101, 5, 7⟩).sell_exchange := by
  have hraw : RealExchangeProvider.calculate_arbitrage_opportunities "BTC/USDT"
      [("A", ⟨100, 100, 101, 5, 0, none, none⟩),
       ("B", ⟨100, 103, 104, 7, 0, none, none⟩)]
      = [⟨"BTC/USDT", "A", "B", 101, 103, 200 / 101, 5, 7⟩] := by
    norm_num [RealExchangeProvider.calculate_arbitrage_opportunities,
      RealExchangeProvider.pair_opportunities, RealExchangeProvider.opp_for_pair,
      List.insertionSort, List.orderedInsert]
  have hout : RealDataService.get_real_arbitrage_opportunities
      [("BTC/USDT", [("A", ⟨100, 100, 101, 5, 0, none, none⟩),
        ("B", ⟨100, 103, 104, 7, 0, none, none⟩)])] [] false []
      = [RealDataService.enrich_real
          ⟨"BTC/USDT", "A", "B", 101, 103, 200 / 101, 5, 7⟩] := by
    simp only [RealDataService.get_real_arbitrage_opportunities,
      RealExchangeProvider.get_arbitrage_opportunities, List.map_cons, List.map_nil,
      List.flatten_cons, List.flatten_nil, List.append_nil, hraw,
      List.filterMap_cons, List.filterMap_nil]
    norm_num [List.insertionSort, List.orderedInsert]
  exact opportunities_above_threshold_distinct
    [("BTC/USDT", [("A", ⟨100, 100, 101, 5, 0, none, none⟩),
      ("B", ⟨100, 103, 104, 7, 0, none, none⟩)])] [] false []
    (by
      intro sp hsp
      simp only [List.mem_singleton] at hsp
      subst hsp
      decide)
    (by
      intro sp hsp
      exact absurd hsp (List.not_mem_nil sp))
    (by
      intro sp hsp
      exact absurd hsp (List.not_mem_nil sp))
    (RealDataService.enrich_real ⟨"BTC/USDT", "A", "B", 101, 103, 200 / 101, 5, 7⟩)
    (by rw [hout]; exact List.mem_singleton_self _)
